import Mathlib

/-!
Verification of the `dune-uploader` data-ingestion scripts.

This file shallowly embeds the five Python scripts of the repository
(`daily_fx_upload.py`, `backfill_fx_rates.py`, `dune_fx_sync.py`,
`trademade-dune-fx-upload.py`, `load_relay_requests_daily.py`) as executable
Lean definitions and proves or refutes the specification's claims about them.

Modelling conventions:
* calendar dates are integers (days since 1970-01-01); `daysFromCivil`
  converts a civil date, and `pyWeekday` is Python's Monday=0 weekday;
* timestamps are integer seconds since the Unix epoch;
* floating-point provider values are modelled as rationals; Python's
  `round(x, 8)` (round-half-to-even) is `round8`;
* each script's effectful main flow becomes a pure function from its inputs
  (provider responses, HTTP status codes, environment values) to its process
  exit code together with a trace of the externally visible actions.
-/

unseal Rat.add Rat.mul Rat.inv Rat.sub

set_option maxRecDepth 100000

/-- Code-point comparison of two character lists, lexicographically: the
order Python/pandas use on strings. -/
def strLtChars : List Char → List Char → Bool
  | [], [] => false
  | [], _ :: _ => true
  | _ :: _, [] => false
  | a :: s, b :: t =>
    if a.toNat < b.toNat then true
    else if b.toNat < a.toNat then false
    else strLtChars s t

/-- Python's `<` on strings (code-point lexicographic). -/
def strLt (a b : String) : Bool := strLtChars a.toList b.toList

/-- Round-half-to-even to the nearest integer, as Python's builtin `round`. -/
def rnd (x : ℚ) : ℤ :=
  if x - (⌊x⌋ : ℚ) < 1/2 then ⌊x⌋
  else if 1/2 < x - (⌊x⌋ : ℚ) then ⌊x⌋ + 1
  else if ⌊x⌋ % 2 = 0 then ⌊x⌋ else ⌊x⌋ + 1

/-- Python's `round(x, 8)`: round to 8 decimal places, ties to even. -/
def round8 (x : ℚ) : ℚ := (rnd (x * 10^8) : ℚ) / 10^8

theorem abs_sub_rnd (x : ℚ) : |x - (rnd x : ℚ)| ≤ 1/2 := by
  unfold rnd
  have h0 : (0:ℚ) ≤ x - (⌊x⌋ : ℚ) := by
    have := Int.floor_le x
    linarith
  have h1 : x - (⌊x⌋ : ℚ) < 1 := by
    have := Int.lt_floor_add_one x
    push_cast
    linarith
  rw [abs_le]
  split_ifs with hlt hgt hev
  · constructor <;> push_cast <;> linarith
  · constructor <;> push_cast <;> linarith
  · constructor <;> push_cast <;> linarith
  · constructor <;> push_cast <;> linarith

theorem abs_sub_round8 (x : ℚ) : |x - round8 x| ≤ 1 / (2 * 10^8) := by
  have h := abs_sub_rnd (x * 10^8)
  have hx : x - round8 x = (x * 10^8 - (rnd (x * 10^8) : ℚ)) / 10^8 := by
    rw [round8]; ring
  rw [hx, abs_div]
  have h8 : |(10:ℚ)^8| = 10^8 := by norm_num
  rw [h8]
  calc |x * 10^8 - (rnd (x * 10^8) : ℚ)| / 10^8 ≤ (1/2) / 10^8 := by gcongr
    _ = 1 / (2 * 10^8) := by norm_num

theorem round8_idem (x : ℚ) : round8 (round8 x) = round8 x := by
  unfold round8
  have h : ((rnd (x * 10^8) : ℚ) / 10^8) * 10^8 = (rnd (x * 10^8) : ℚ) := by
    field_simp
  rw [h]
  have h2 : ∀ k : ℤ, rnd (k : ℚ) = k := by
    intro k
    unfold rnd
    simp [Int.floor_intCast]
  rw [h2]

/-- Error of the product of a rounded value and its separately rounded
reciprocal: the deviation from 1 grows linearly with `r + 1/r`. -/
theorem round8_mul_round8_inv (r : ℚ) (hr : 0 < r) :
    |round8 r * round8 (1/r) - 1| ≤ (r + 1/r) * (1 / (2 * 10^8)) + 1 / (4 * 10^16) := by
  set e : ℚ := 1 / (2 * 10^8) with he
  have ha : |round8 r - r| ≤ e := by
    have := abs_sub_round8 r
    rwa [abs_sub_comm] at this
  have hb : |round8 (1/r) - 1/r| ≤ e := by
    have := abs_sub_round8 (1/r)
    rwa [abs_sub_comm] at this
  have hrinv : 0 < 1/r := by positivity
  have key : round8 r * round8 (1/r) - 1 =
      (round8 r - r) * (round8 (1/r) - 1/r) + (round8 r - r) * (1/r) + r * (round8 (1/r) - 1/r) := by
    field_simp
    ring
  rw [key]
  have t1 : |(round8 r - r) * (round8 (1/r) - 1/r)| ≤ e * e := by
    rw [abs_mul]
    exact mul_le_mul ha hb (abs_nonneg _) (by rw [he]; norm_num)
  have t2 : |(round8 r - r) * (1/r)| ≤ e * (1/r) := by
    rw [abs_mul, abs_of_pos hrinv]
    exact mul_le_mul_of_nonneg_right ha (le_of_lt hrinv)
  have t3 : |r * (round8 (1/r) - 1/r)| ≤ r * e := by
    rw [abs_mul, abs_of_pos hr]
    exact mul_le_mul_of_nonneg_left hb (le_of_lt hr)
  calc |(round8 r - r) * (round8 (1/r) - 1/r) + (round8 r - r) * (1/r) + r * (round8 (1/r) - 1/r)|
      ≤ |(round8 r - r) * (round8 (1/r) - 1/r) + (round8 r - r) * (1/r)| + |r * (round8 (1/r) - 1/r)| :=
        abs_add _ _
    _ ≤ |(round8 r - r) * (round8 (1/r) - 1/r)| + |(round8 r - r) * (1/r)| + |r * (round8 (1/r) - 1/r)| := by
        have := abs_add ((round8 r - r) * (round8 (1/r) - 1/r)) ((round8 r - r) * (1/r))
        linarith
    _ ≤ e * e + e * (1/r) + r * e := by linarith
    _ = (r + 1/r) * e + e * e := by ring
    _ = (r + 1/r) * (1 / (2 * 10^8)) + 1 / (4 * 10^16) := by rw [he]; norm_num

/-- Error of `v * round8 (1/v)`: the shape used for weekend-backfilled rows,
whose `fx_rate` is an already-rounded value `v`. -/
theorem mul_round8_inv (v : ℚ) (hv : 0 < v) :
    |v * round8 (1/v) - 1| ≤ v * (1 / (2 * 10^8)) := by
  have hb : |round8 (1/v) - 1/v| ≤ 1 / (2 * 10^8) := by
    have := abs_sub_round8 (1/v)
    rwa [abs_sub_comm] at this
  have key : v * round8 (1/v) - 1 = v * (round8 (1/v) - 1/v) := by
    field_simp
    ring
  rw [key, abs_mul, abs_of_pos hv]
  exact mul_le_mul_of_nonneg_left hb (le_of_lt hv)

/-! ## Calendar arithmetic -/

/-- Days since 1970-01-01 of the civil date `(y, m, d)` (proleptic Gregorian);
the standard days-from-civil algorithm. -/
def daysFromCivil (y m d : ℤ) : ℤ :=
  let y' := if m ≤ 2 then y - 1 else y
  let era := y' / 400
  let yoe := y' - era * 400
  let mp := if 2 < m then m - 3 else m + 9
  let doy := (153 * mp + 2) / 5 + d - 1
  let doe := yoe * 365 + yoe / 4 - yoe / 100 + doy
  era * 146097 + doe - 719468

/-- Python `date.weekday()`: Monday = 0, ..., Sunday = 6
(1970-01-01 was a Thursday, weekday 3). -/
def pyWeekday (days : ℤ) : ℤ := (days + 3) % 7

/-- Seconds since the Unix epoch of a UTC civil datetime. -/
def utcSecs (y m d h mi s : ℤ) : ℤ :=
  daysFromCivil y m d * 86400 + h * 3600 + mi * 60 + s

/-- Day of month of the last Sunday of month `m` (March or October, 31 days)
of year `y`: the EU daylight-saving transition days. -/
def lastSundayDom (y m : ℤ) : ℤ :=
  31 - ((pyWeekday (daysFromCivil y m 31) + 1) % 7)

/-- Naive local seconds of an Amsterdam wall-clock datetime (date plus
time-of-day seconds), counted as if it were UTC. -/
def amsLocalSecs (y m d tod : ℤ) : ℤ := daysFromCivil y m d * 86400 + tod

/-- Whether the Amsterdam wall-clock instant is in daylight-saving time:
between 02:00 local on the last Sunday of March and 03:00 local on the last
Sunday of October (the Europe/Amsterdam rules applied by `zoneinfo`). -/
def amsIsDST (y m d tod : ℤ) : Bool :=
  let t := amsLocalSecs y m d tod
  decide (amsLocalSecs y 3 (lastSundayDom y 3) 7200 ≤ t ∧
          t < amsLocalSecs y 10 (lastSundayDom y 10) 10800)

/-- UTC offset (seconds) of an Amsterdam wall-clock instant: CEST (+2h) in
summer, CET (+1h) otherwise. -/
def amsOffset (y m d tod : ℤ) : ℤ := if amsIsDST y m d tod then 7200 else 3600

/-- `compute_local_day_window_eu_amsterdam` from `load_relay_requests_daily.py`:
the UTC instants of local `00:00:00` and `23:59:59` of the target date. -/
def localWindowUTC (y m d : ℤ) : ℤ × ℤ :=
  (amsLocalSecs y m d 0 - amsOffset y m d 0,
   amsLocalSecs y m d 86399 - amsOffset y m d 86399)

/-! ## FX rate rows and the shared currency universes -/

/-- The common FX upload row `{date, currency, fx_rate, inverse_fx_rate}`. -/
structure FxRow where
  date : ℤ
  currency : String
  fx_rate : ℚ
  inverse_fx_rate : ℚ
deriving DecidableEq

/-- The 24-currency universe of `daily_fx_upload.py` (includes ARS). -/
def CURRENCIES_DAILY : List String :=
  ["AED", "ARS", "AUD", "CAD", "CHF", "CNY", "EUR", "GBP", "HKD", "IDR",
   "ILS", "JPY", "KES", "MXN", "MYR", "NZD", "PLN", "SAR",
   "SGD", "THB", "TRY", "USD", "VND", "ZAR"]

/-- The 23-currency universe of the other FX scripts (no ARS). -/
def CURRENCIES_NO_ARS : List String :=
  ["AED", "AUD", "CAD", "CHF", "CNY", "EUR", "GBP", "HKD", "IDR",
   "ILS", "JPY", "KES", "MXN", "MYR", "NZD", "PLN", "SAR",
   "SGD", "THB", "TRY", "USD", "VND", "ZAR"]

/-- Pandas `sort_values("date")` order (stable). -/
def rowLEDate (a b : FxRow) : Prop := a.date ≤ b.date

instance : DecidableRel rowLEDate := fun a b => by
  unfold rowLEDate
  infer_instance

/-- Pandas `sort_values(by=["currency", "date"])` order (stable). -/
def rowLECurrencyDate (a b : FxRow) : Prop :=
  strLt a.currency b.currency = true ∨ (a.currency = b.currency ∧ a.date ≤ b.date)

instance : DecidableRel rowLECurrencyDate := fun a b => by
  unfold rowLECurrencyDate
  infer_instance

/-- Pandas `sort_values(["date", "currency"])` order (stable). -/
def rowLEDateCurrency (a b : FxRow) : Prop :=
  a.date < b.date ∨
    (a.date = b.date ∧ (strLt a.currency b.currency = true ∨ a.currency = b.currency))

instance : DecidableRel rowLEDateCurrency := fun a b => by
  unfold rowLEDateCurrency
  infer_instance

def sortByDate (l : List FxRow) : List FxRow := List.insertionSort rowLEDate l

def sortByCurrencyDate (l : List FxRow) : List FxRow :=
  List.insertionSort rowLECurrencyDate l

def sortByDateCurrency (l : List FxRow) : List FxRow :=
  List.insertionSort rowLEDateCurrency l

/-- Pandas `Series.unique`: first occurrences, in order of appearance. -/
def uniqueFirst (l : List String) : List String :=
  l.foldl (fun acc a => if a ∈ acc then acc else acc ++ [a]) []

/-! ## `daily_fx_upload.py` — Daily FX Rate Loader -/

/-- One row of the daily loader's transform loop: the provider value `fx` is
currency-units-per-USD; the loader stores `fx_rate = round(1/fx, 8)` and
`inverse_fx_rate = round(fx, 8)` (lines 46-52). -/
def dailyFxRow (today : ℤ) (c : String) (fx : ℚ) : FxRow :=
  ⟨today, c, round8 (1 / fx), round8 fx⟩

/-- The daily loader's rows loop (lines 40-52): skip a currency whose provider
rate is absent or zero, otherwise build `dailyFxRow`. -/
def dailyRows (today : ℤ) (rates : String → Option ℚ) : List FxRow :=
  CURRENCIES_DAILY.filterMap (fun c =>
    match rates c with
    | none => none
    | some fx => if fx = 0 then none else some (dailyFxRow today c fx))

/-- The Saturday rule of `backfill_weekend_rates` (lines 72-81): a two-day gap
from a Friday row `p` to a Sunday row `c` synthesizes Saturday at weights
`(2/3, 1/3)` on `(p, c)`. -/
def satGapRows (cur : String) (p c : FxRow) : List FxRow :=
  if c.date - p.date = 2 ∧ pyWeekday p.date = 4 ∧ pyWeekday c.date = 6 then
    [⟨p.date + 1, cur, round8 ((2/3) * p.fx_rate + (1/3) * c.fx_rate),
      round8 (1 / round8 ((2/3) * p.fx_rate + (1/3) * c.fx_rate))⟩]
  else []

/-- The Sunday rule of `backfill_weekend_rates` (lines 84-93): a Monday row `c`
followed two days later by `n` and preceded by a Friday row `p` synthesizes
Sunday (`c.date - 1`) at weights `(1/3, 2/3)` on `(p, c)`. -/
def sunGapRows (cur : String) (p c n : FxRow) : List FxRow :=
  if n.date - c.date = 2 ∧ pyWeekday c.date = 0 ∧ pyWeekday p.date = 4 then
    [⟨c.date - 1, cur, round8 ((1/3) * p.fx_rate + (2/3) * c.fx_rate),
      round8 (1 / round8 ((1/3) * p.fx_rate + (2/3) * c.fx_rate))⟩]
  else []

/-- The adjacent triples `(l[i-1], l[i], l[i+1])` for `i = 1 .. len-2`,
as in the Python index loop. -/
def triplesOf (l : List FxRow) : List ((FxRow × FxRow) × FxRow) :=
  (l.zip (l.drop 1)).zip (l.drop 2)

/-- `backfill_weekend_rates` (lines 58-97): group by currency, sort each group
by date, scan adjacent triples for the Saturday/Sunday rules, then append the
synthesized rows and sort everything by `(currency, date)`. -/
def backfillWeekendRates (df : List FxRow) : List FxRow :=
  let currencies := uniqueFirst (df.map (fun r => r.currency))
  let backfilled := currencies.flatMap (fun cur =>
    let g := sortByDate (df.filter (fun r => r.currency == cur))
    (triplesOf g).flatMap (fun t => satGapRows cur t.1.1 t.1.2 ++ sunGapRows cur t.1.1 t.1.2 t.2))
  sortByCurrencyDate (df ++ backfilled)

/-- The loader's final cleanup (lines 102-103): drop rows whose `fx_rate` or
`inverse_fx_rate` is zero (absent values cannot arise for rational inputs). -/
def dailyFinalRows (today : ℤ) (rates : String → Option ℚ) : List FxRow :=
  (backfillWeekendRates (dailyRows today rates)).filter
    (fun r => decide (r.fx_rate ≠ 0 ∧ r.inverse_fx_rate ≠ 0))

/-- The daily loader's exit status given the final table and the upload
response (lines 108-128): exit 1 on an empty table; the upload outcome itself
is only printed, so the process exits 0 whatever the insert status. -/
def dailyRun (today : ℤ) (rates : String → Option ℚ) (_uploadStatus : ℕ) : ℤ :=
  if (dailyFinalRows today rates).isEmpty then 1 else 0

/-! ## `backfill_fx_rates.py` — Weekend FX Backfill (market-data variant) -/

/-- `extract_fx` (lines 56-70): fold the provider rows `(instrument, close)`
into a per-currency dict; pairs shorter than 6 characters and zero closes are
skipped; the rate is `close` when the quote leg is USD, else `1/close`;
the weight argument is always 1. -/
def extract_fx (df : List (String × ℚ)) : String → Option ℚ :=
  df.foldl (fun acc p =>
    if p.1.length < 6 then acc
    else
      let base_cur := (p.1.toList.take 3).asString
      let quote_cur := (p.1.toList.drop 3).asString
      if p.2 = 0 then acc
      else
        let fx := if quote_cur = "USD" then p.2 else 1 / p.2
        fun c => if c = base_cur then some fx else acc c)
    (fun _ => none)

/-- The Saturday rows built by the weekend backfill's main loop
(lines 79-92), dated `today - 2`; currencies missing from either snapshot are
skipped, and the explicit USD base row is appended afterwards (lines 101-112). -/
def wkndSaturdayRows (today : ℤ) (fri mon : String → Option ℚ) : List FxRow :=
  (CURRENCIES_NO_ARS.filterMap (fun cur =>
    match fri cur, mon cur with
    | some F, some M =>
        some (⟨today - 2, cur, round8 ((2/3) * F + (1/3) * M),
               round8 (1 / round8 ((2/3) * F + (1/3) * M))⟩ : FxRow)
    | _, _ => none)) ++ [⟨today - 2, "USD", 1, 1⟩]

/-- The Sunday rows built by the weekend backfill's main loop
(lines 79-99, 101-112), dated `today - 1`. -/
def wkndSundayRows (today : ℤ) (fri mon : String → Option ℚ) : List FxRow :=
  (CURRENCIES_NO_ARS.filterMap (fun cur =>
    match fri cur, mon cur with
    | some F, some M =>
        some (⟨today - 1, cur, round8 ((1/3) * F + (2/3) * M),
               round8 (1 / round8 ((1/3) * F + (2/3) * M))⟩ : FxRow)
    | _, _ => none)) ++ [⟨today - 1, "USD", 1, 1⟩]

/-- `df_backfill` after the cleanup of lines 115-117: Saturday plus Sunday
rows with zero-rate rows dropped. -/
def wkndFinalRows (today : ℤ) (fri mon : String → Option ℚ) : List FxRow :=
  (wkndSaturdayRows today fri mon ++ wkndSundayRows today fri mon).filter
    (fun r => decide (r.fx_rate ≠ 0 ∧ r.inverse_fx_rate ≠ 0))

/-- Externally visible actions of the weekend backfill script. -/
inductive WkAct where
  | provFetch
  | duneInsert
deriving DecidableEq

/-- The whole weekend-backfill run: `today`'s weekday gate (lines 21-24),
two provider fetches (lines 48-49, `none` = fetch failure), the abort when
either snapshot is missing (lines 51-53), and the upload whose non-200
response is only printed (lines 130-137), so the exit status is 0 once both
snapshots are present.  Result: (exit status, action trace, uploaded rows). -/
def runWkBackfill (today : ℤ) (fri mon : Option (String → Option ℚ))
    (_uploadStatus : ℕ) : ℤ × List WkAct × List FxRow :=
  if pyWeekday today ≠ 0 then (1, [], [])
  else
    match fri, mon with
    | some f, some m =>
        (0, [WkAct.provFetch, WkAct.provFetch, WkAct.duneInsert], wkndFinalRows today f m)
    | _, _ => (1, [WkAct.provFetch, WkAct.provFetch], [])

/-! ## `trademade-dune-fx-upload.py` — Daily FX Update (robust variant) -/

/-- One iteration of the rows loop (lines 35-67): split the instrument code,
orient the close value, skip zero rates (the `pd.isna` and `ZeroDivisionError`
guards collapse to the zero test over the rationals), and store
`fx_rate = round(fx, 8)`, `inverse_fx_rate = round(1/fx, 8)`. -/
def tmRow (today : ℤ) (p : String × ℚ) : Option FxRow :=
  let base_cur := (p.1.toList.take 3).asString
  let quote_cur := (p.1.toList.drop 3).asString
  let fx := if quote_cur = "USD" then p.2 else 1 / p.2
  if fx = 0 then none
  else some ⟨today, base_cur, round8 fx, round8 (1 / fx)⟩

/-- The rows list with the synthetic USD base row appended (lines 70-75). -/
def tmRows (today : ℤ) (provider : List (String × ℚ)) : List FxRow :=
  provider.filterMap (tmRow today) ++ [⟨today, "USD", 1, 1⟩]

/-- `df_final` after the safety cleanup of lines 81-82. -/
def tmFinalRows (today : ℤ) (provider : List (String × ℚ)) : List FxRow :=
  (tmRows today provider).filter
    (fun r => decide (r.fx_rate ≠ 0 ∧ r.inverse_fx_rate ≠ 0))

/-- Exit status of the daily update (lines 87-111): exit 1 on an empty final
table; the upload response is only printed, so otherwise the exit is 0. -/
def tmRun (today : ℤ) (provider : List (String × ℚ)) (_uploadStatus : ℕ) : ℤ :=
  if (tmFinalRows today provider).isEmpty then 1 else 0

/-! ## `dune_fx_sync.py` — Historical FX Bulk Sync -/

/-- Whether the character list `pat` occurs at the start of `s`. -/
def startsWithChars : List Char → List Char → Bool
  | _, [] => true
  | [], _ :: _ => false
  | a :: s, b :: p => a == b && startsWithChars s p

/-- Whether the character list `pat` occurs anywhere inside `s`. -/
def containsChars : List Char → List Char → Bool
  | [], pat => pat.isEmpty
  | a :: rest, pat => startsWithChars (a :: rest) pat || containsChars rest pat

/-- Python's `pat in s` substring test on strings. -/
def strContainsSub (s pat : String) : Bool := containsChars s.toList pat.toList

/-- `fetch_yahoo_finance_rates` (lines 30-72): USD gets a dense constant-1.0
series over the date range; otherwise the primary `USD<CUR>=X` series is
fetched and inverted, and when it is empty the fallback `<CUR>USD=X` series is
used as-is.  `primary`/`fallback` give each ticker ordering's
`(date, close)` series. -/
def fetch_yahoo_finance_rates (primary fallback : String → List (ℤ × ℚ))
    (dateRange : List ℤ) (currency base_currency : String) : List (ℤ × ℚ) :=
  if currency = base_currency then dateRange.map (fun d => (d, 1))
  else if primary currency = [] then fallback currency
  else (primary currency).map (fun p => (p.1, 1 / p.2))

/-- `main`'s per-currency accumulation (lines 74-100): empty series are
skipped, `fx_rate` is the (possibly inverted) close value and
`inverse_fx_rate = 1 / fx_rate` with NO rounding and NO zero/absent filter;
the combined frame is sorted by `(date, currency)`. -/
def syncRows (primary fallback : String → List (ℤ × ℚ)) (dateRange : List ℤ) : List FxRow :=
  sortByDateCurrency (CURRENCIES_NO_ARS.flatMap (fun cur =>
    (fetch_yahoo_finance_rates primary fallback dateRange cur "USD").map
      (fun p => (⟨p.1, cur, p.2, 1 / p.2⟩ : FxRow))))

/-- Console-visible outcomes of the bulk sync's destination steps. -/
inductive SEv where
  | noData
  | created
  | alreadyExists
  | createFailed
  | cleared
  | clearFailed
  | uploaded
  | uploadFailed
deriving DecidableEq

/-- The bulk sync's `main` (lines 74-161): on an empty dataset it returns
early; otherwise the create response is classified (200 / body containing
"already exists" / other), the clear and insert are attempted regardless, and
every branch merely prints, so `main` always returns and the process exit
status is 0. -/
def runSync (primary fallback : String → List (ℤ × ℚ)) (dateRange : List ℤ)
    (createStatus : ℕ) (createBody : String) (clearStatus uploadStatus : ℕ) :
    ℤ × List SEv :=
  let rows := syncRows primary fallback dateRange
  if rows.isEmpty then (0, [SEv.noData])
  else
    let e1 := if createStatus = 200 then SEv.created
      else if strContainsSub createBody "already exists" then SEv.alreadyExists
      else SEv.createFailed
    let e2 := if clearStatus = 200 then SEv.cleared else SEv.clearFailed
    let e3 := if uploadStatus = 200 then SEv.uploaded else SEv.uploadFailed
    (0, [e1, e2, e3])

/-! ## `load_relay_requests_daily.py` — Relay Requests Daily Loader -/

/-- JSON-ish field values appearing in relay request payloads. -/
inductive JVal where
  | jnull
  | jint (n : ℤ)
  | jstr (s : String)
  | jbool (b : Bool)
deriving DecidableEq

/-- The accumulator of a decimal-digit parse: fails on the first non-digit. -/
def digitsValAux : List Char → ℕ → Option ℕ
  | [], acc => some acc
  | c :: rest, acc =>
    if c.isDigit then digitsValAux rest (acc * 10 + (c.toNat - 48)) else none

/-- Python's `int(s)` on a string: an optional minus sign followed by decimal
digits; anything else raises, which `to_int` turns into `None`. -/
def pyParseInt (s : String) : Option ℤ :=
  match s.toList with
  | [] => none
  | '-' :: rest => if rest = [] then none else (digitsValAux rest 0).map (fun n => -(n : ℤ))
  | l => (digitsValAux l 0).map (fun n => (n : ℤ))

/-- `to_int` (lines 113-119): `None`/empty string give `None`; integers pass
through; strings are parsed (failure gives `None`); Python booleans coerce to
0/1. -/
def to_int : JVal → Option ℤ
  | JVal.jnull => none
  | JVal.jint n => some n
  | JVal.jstr s => if s = "" then none else pyParseInt s
  | JVal.jbool b => some (if b then 1 else 0)

/-- The hard-coded `CHAIN_MAP` (lines 53-73), in source order. -/
def CHAIN_MAP : List (ℤ × String) :=
  [(999,        "Hyperliquid HyperEVM"),
   (146,        "Sonic Mainnet"),
   (5000,       "Mantle Mainnet"),
   (8253038,    "Bitcoin"),
   (9745,       "Plasma Mainnet"),
   (56,         "BNB Chain (BSC)"),
   (43114,      "Avalanche C-Chain"),
   (1337,       "Localhost / Dev"),
   (480,        "World Chain Mainnet"),
   (42220,      "Celo Mainnet"),
   (33139,      "ApeChain Mainnet"),
   (792703809,  "Solana"),
   (1,          "Ethereum Mainnet"),
   (137,        "Polygon PoS"),
   (534352,     "Scroll Mainnet"),
   (42161,      "Arbitrum One"),
   (8453,       "Base Mainnet"),
   (100,        "Gnosis Chain (xDai)"),
   (747,        "Flow EVM Mainnet")]

/-- `chain_name` (lines 75-81): absent IDs give `None`, otherwise a
`CHAIN_MAP` lookup whose miss gives `None` rather than an error. -/
def chain_name (cid : Option ℤ) : Option String :=
  match cid with
  | none => none
  | some i => CHAIN_MAP.lookup i

/-- A relay request, restricted to the fields the verified properties
inspect: the identifier, the `createdAt` instant (seconds since the epoch,
`none` when absent or unparsable) and the two legs' raw `chainId` fields. -/
structure RelayReq where
  id : Option String
  createdAt : Option ℤ
  inChainId : JVal
  outChainId : JVal
deriving DecidableEq

/-- The corresponding columns of one flattened row (lines 347-411). -/
structure FlatRow where
  request_id : Option String
  created_at : Option ℤ
  in_chain_id : Option ℤ
  in_chain_name : Option String
  out_chain_id : Option ℤ
  out_chain_name : Option String
deriving DecidableEq

/-- The flatten loop body (lines 344-411): chain IDs go through `to_int` and
the chain names through `chain_name`. -/
def flattenReq (r : RelayReq) : FlatRow :=
  ⟨r.id, r.createdAt, to_int r.inChainId, chain_name (to_int r.inChainId),
   to_int r.outChainId, chain_name (to_int r.outChainId)⟩

/-- The pagination loop's de-duplication (lines 318-322): keep a request when
its id is truthy (not absent, not empty) and not seen before. -/
def dedupById (l : List RelayReq) : List RelayReq :=
  (l.foldl (fun (acc : List RelayReq × List String) item =>
    match item.id with
    | some i => if i ≠ "" ∧ i ∉ acc.2 then (acc.1 ++ [item], acc.2 ++ [i]) else acc
    | none => acc) ([], [])).1

/-- The day filter (lines 419-423): keep rows whose `created_at` parses and
lies in the closed UTC window; unparsable timestamps (`NaT`) never match. -/
def dayFilter (w : ℤ × ℤ) (rows : List FlatRow) : List FlatRow :=
  rows.filter (fun r =>
    match r.created_at with
    | some t => decide (w.1 ≤ t ∧ t ≤ w.2)
    | none => false)

/-- The rows surviving the whole fetch–flatten–filter pipeline for the
Europe/Amsterdam day `(y, m, d)`. -/
def relayDayRows (batches : List (List RelayReq)) (y m d : ℤ) : List FlatRow :=
  dayFilter (localWindowUTC y m d) ((dedupById batches.flatten).map flattenReq)

/-- Externally visible actions of the relay loader. -/
inductive RAct where
  | relayGet
  | csvWrite
  | duneCreate
  | duneInsert
deriving DecidableEq

/-- The relay loader's `main` (lines 300-439): one listing GET per response
page, flatten, filter to the local day, exit 0 with no further action when no
rows remain; otherwise the CSV is written, then `create_table_if_needed`
checks `DUNE_API_KEY` and raises `SystemExit` (exit 1) BEFORE its POST when
the key is empty; a create response outside {200, 201, 409} raises after the
POST; then the insert POST raises on non-200.  Result: (exit status,
action trace). -/
def runRelay (apiKey : String) (batches : List (List RelayReq)) (y m d : ℤ)
    (createStatus insertStatus : ℕ) : ℤ × List RAct :=
  let gets : List RAct := batches.map (fun _ => RAct.relayGet)
  let dayRows := relayDayRows batches y m d
  if dayRows.isEmpty then (0, gets)
  else if apiKey = "" then (1, gets ++ [RAct.csvWrite])
  else if createStatus = 200 ∨ createStatus = 201 ∨ createStatus = 409 then
    if insertStatus = 200 then (0, gets ++ [RAct.csvWrite, RAct.duneCreate, RAct.duneInsert])
    else (1, gets ++ [RAct.csvWrite, RAct.duneCreate, RAct.duneInsert])
  else (1, gets ++ [RAct.csvWrite, RAct.duneCreate])

/-! ## Components referenced by the spec but absent from `src/` -/

/-- Modelled from the spec: the Weekend FX Backfill, currency-history variant
(spec §4.2), whose script is not under `src/`.  For each currency present in
both snapshots, `inverse_fx = round(2/3·friday + 1/3·monday, 8)` for Saturday
(`(1/3, 2/3)` for Sunday) over the provider's currency-units-per-USD values,
`fx_rate = round(1/inverse_fx, 8)` when `inverse_fx ≠ 0` else `0`, and
zero/absent rows are dropped before upload (spec §4.2 step 4). -/
def specWkndVariantRows (today : ℤ) (fri mon : String → Option ℚ) : List FxRow :=
  (CURRENCIES_NO_ARS.flatMap (fun cur =>
    match fri cur, mon cur with
    | some F, some M =>
        let satInv := round8 ((2/3) * F + (1/3) * M)
        let sunInv := round8 ((1/3) * F + (2/3) * M)
        [(⟨today - 2, cur, if satInv = 0 then 0 else round8 (1 / satInv), satInv⟩ : FxRow),
         (⟨today - 1, cur, if sunInv = 0 then 0 else round8 (1 / sunInv), sunInv⟩ : FxRow)]
    | _, _ => [])).filter (fun r => decide (r.fx_rate ≠ 0 ∧ r.inverse_fx_rate ≠ 0))

/-- Modelled from the spec: the first Daily FX Update variant (spec §4.5), the
near-duplicate of `trademade-dune-fx-upload.py` without the defensive guards,
not under `src/`.  Per returned row the instrument splits into legs, the rate
is oriented against USD, `fx_rate = round(fx, 8)`,
`inverse_fx_rate = round(1/fx_rate, 8)`; the synthetic USD row is appended and
zero/absent rows are dropped (spec §4.5). -/
def specDailyV1Rows (today : ℤ) (provider : List (String × ℚ)) : List FxRow :=
  ((provider.map (fun (p : String × ℚ) =>
      let quote_cur := (p.1.toList.drop 3).asString
      let fx := if quote_cur = "USD" then p.2 else 1 / p.2
      (⟨today, (p.1.toList.take 3).asString, round8 fx, round8 (1 / round8 fx)⟩ : FxRow)))
    ++ [(⟨today, "USD", 1, 1⟩ : FxRow)]).filter
      (fun r => decide (r.fx_rate ≠ 0 ∧ r.inverse_fx_rate ≠ 0))

/-! ## Concrete inputs used by counterexamples and witnesses
(day 20000 = 2024-10-04, a Friday; 20002 a Sunday; 20003 a Monday) -/

/-- Provider snapshot holding only a VND-scale rate (26000 units per USD). -/
def ratesVND : String → Option ℚ := fun c => if c = "VND" then some 26000 else none

/-- Provider snapshot holding only one huge rate, whose reciprocal rounds
to zero at 8 decimals. -/
def ratesBig : String → Option ℚ := fun c => if c = "AED" then some (10^9) else none

/-- Friday snapshot of the weekend-backfill examples: EUR at 1.10. -/
def friEx : String → Option ℚ := fun c => if c = "EUR" then some (11/10) else none

/-- Monday snapshot of the weekend-backfill examples: EUR at 1.20. -/
def monEx : String → Option ℚ := fun c => if c = "EUR" then some (6/5) else none

/-- A quote source whose primary ticker ordering never returns data. -/
def primNone : String → List (ℤ × ℚ) := fun _ => []

/-- A fallback quote source returning a single zero close for AED. -/
def fbZeroAED : String → List (ℤ × ℚ) := fun c => if c = "AED" then [(20000, 0)] else []

/-- A fallback quote source returning a single close of 2 for AED. -/
def fbTwoAED : String → List (ℤ × ℚ) := fun c => if c = "AED" then [(20000, 2)] else []

/-- A relay request created inside the Amsterdam day 2025-06-15. -/
def reqInWindow : RelayReq :=
  ⟨some "a", some (utcSecs 2025 6 14 23 30 0), JVal.jint 8453, JVal.jnull⟩

/-- A relay request created after the Amsterdam day 2025-06-15 ends. -/
def reqOutWindow : RelayReq :=
  ⟨some "b", some (utcSecs 2025 6 15 22 30 0), JVal.jnull, JVal.jnull⟩

/-- Three rows for one currency on only two distinct dates (a Friday and a
duplicated Sunday). -/
def dupDatesDf : List FxRow :=
  [⟨20000, "EUR", 1, 1⟩, ⟨20002, "EUR", 1, 1⟩, ⟨20002, "EUR", 1, 1⟩]

/-- Two rows for one currency: fewer than three rows. -/
def twoRowsDf : List FxRow := [⟨20000, "EUR", 1, 1⟩, ⟨20002, "EUR", 1, 1⟩]

/-- A lookup on a list of pairs misses exactly when the key is not among the
first components. -/
theorem lookup_none_of_not_mem_keys {β : Type} (l : List (ℤ × β)) (i : ℤ)
    (h : i ∉ l.map Prod.fst) : l.lookup i = none := by
  induction l with
  | nil => rfl
  | cons a t ih =>
    obtain ⟨k, v⟩ := a
    have h1 : ¬ i = k := by
      intro e
      exact h (by simp [e])
    have h2 : i ∉ t.map Prod.fst := by
      intro e
      exact h (by simp [e])
    simp only [List.lookup]
    rw [show (i == k) = false from beq_eq_false_iff_ne.mpr h1]
    exact ih h2

/-- C6: invoked on a day whose weekday is not Monday (index 0), the weekend
FX backfill performs no network call at all, produces no rows, and exits
with status 1. -/
theorem weekend_backfill_monday_gate (today : ℤ) (fri mon : Option (String → Option ℚ))
    (us : ℕ) (h : pyWeekday today ≠ 0) :
    runWkBackfill today fri mon us = (1, [], []) := by
  unfold runWkBackfill
  rw [if_pos h]

/-- C6 witness: day 20000 is a Friday, and the gate fires on it. -/
theorem weekend_backfill_monday_gate_witness :
    runWkBackfill 20000 none none 200 = (1, [], []) :=
  weekend_backfill_monday_gate 20000 none none 200 (by decide)

/-- C9: chain id 8453 on the input leg resolves to "Base Mainnet"; an id
outside the 19-entry map (such as 999999), an absent id, or a non-integer id
all yield an absent chain name rather than an error. -/
theorem chain_name_resolution :
    (flattenReq ⟨some "a", none, JVal.jint 8453, JVal.jnull⟩).in_chain_name = some "Base Mainnet"
  ∧ (flattenReq ⟨some "a", none, JVal.jint 999999, JVal.jnull⟩).in_chain_name = none
  ∧ (flattenReq ⟨some "a", none, JVal.jnull, JVal.jnull⟩).in_chain_name = none
  ∧ (flattenReq ⟨some "a", none, JVal.jstr "abc", JVal.jnull⟩).in_chain_name = none
  ∧ CHAIN_MAP.length = 19
  ∧ (∀ i : ℤ, i ∉ CHAIN_MAP.map Prod.fst → chain_name (some i) = none) := by
  refine ⟨by decide, by decide, by decide, by decide, by decide, ?_⟩
  intro i hi
  unfold chain_name
  exact lookup_none_of_not_mem_keys CHAIN_MAP i hi

/-- C9 witness: the unmapped-id conjunct applied at 999999. -/
theorem chain_name_resolution_witness : chain_name (some 999999) = none :=
  chain_name_resolution.2.2.2.2.2 999999 (by decide)

/-- C7: the relay day filter keeps exactly the rows whose `created_at` lies in
the closed UTC window; for the Amsterdam day 2025-06-15 the window is
[2025-06-14T22:00:00Z, 2025-06-15T21:59:59Z], so a request created at
2025-06-14T23:30:00Z is kept and one created at 2025-06-15T22:30:00Z is
dropped. -/
theorem relay_day_window_filter :
    (∀ (w : ℤ × ℤ) (rows : List FlatRow) (r : FlatRow),
      r ∈ dayFilter w rows ↔
        r ∈ rows ∧ ∃ t, r.created_at = some t ∧ w.1 ≤ t ∧ t ≤ w.2)
  ∧ localWindowUTC 2025 6 15 = (utcSecs 2025 6 14 22 0 0, utcSecs 2025 6 15 21 59 59)
  ∧ relayDayRows [[reqInWindow, reqOutWindow]] 2025 6 15 = [flattenReq reqInWindow] := by
  refine ⟨?_, by decide, by decide⟩
  intro w rows r
  rw [dayFilter, List.mem_filter]
  cases hc : r.created_at with
  | none => simp [hc]
  | some t => simp [hc]

/-- C7 witness: the membership characterization applied to the in-window
request's flattened row. -/
theorem relay_day_window_filter_witness :
    flattenReq reqInWindow ∈ dayFilter (localWindowUTC 2025 6 15) [flattenReq reqInWindow] :=
  (relay_day_window_filter.1 (localWindowUTC 2025 6 15) [flattenReq reqInWindow]
    (flattenReq reqInWindow)).mpr
    ⟨by decide, utcSecs 2025 6 14 23 30 0, by decide, by decide, by decide⟩

/-- C10 counterexample: a table whose only currency has just two distinct
dates (but three rows) still gets a synthesized Saturday row, so the
"fewer than three distinct dates" reading of the claim fails. -/
theorem backfill_distinct_dates_counterexample :
    ((dupDatesDf.map (fun r => r.date)).dedup).length = 2
  ∧ (dupDatesDf.map (fun r => r.currency)).dedup = ["EUR"]
  ∧ (⟨20001, "EUR", 1, 1⟩ : FxRow) ∈ backfillWeekendRates dupDatesDf
  ∧ backfillWeekendRates dupDatesDf ≠ sortByCurrencyDate dupDatesDf := by
  decide

/-- C10 (amended): when every currency has fewer than three ROWS — in
particular in the daily loader's single-date run — `backfill_weekend_rates`
synthesizes nothing: it returns exactly the input rows, reordered by
`(currency, date)`. -/
theorem backfill_short_input_noop (df : List FxRow)
    (h : ∀ c : String, (df.filter (fun r => r.currency == c)).length < 3) :
    backfillWeekendRates df = sortByCurrencyDate df
  ∧ (backfillWeekendRates df).Perm df := by
  have hz : ∀ cur, triplesOf (sortByDate (df.filter (fun r => r.currency == cur))) = [] := by
    intro cur
    unfold triplesOf
    have hp := (List.perm_insertionSort rowLEDate (df.filter (fun r => r.currency == cur))).length_eq
    have hlen : (sortByDate (df.filter (fun r => r.currency == cur))).length ≤ 2 := by
      unfold sortByDate
      rw [hp]
      have := h cur
      omega
    have hd : (sortByDate (df.filter (fun r => r.currency == cur))).drop 2 = [] :=
      List.drop_eq_nil_iff.mpr hlen
    rw [hd, List.zip_nil_right]
  have hb : (uniqueFirst (df.map (fun r => r.currency))).flatMap (fun cur =>
      (triplesOf (sortByDate (df.filter (fun r => r.currency == cur)))).flatMap
        (fun t => satGapRows cur t.1.1 t.1.2 ++ sunGapRows cur t.1.1 t.1.2 t.2)) = [] := by
    apply List.flatMap_eq_nil_iff.mpr
    intro cur _
    rw [hz cur]
    rfl
  have hdef : backfillWeekendRates df =
      sortByCurrencyDate (df ++ (uniqueFirst (df.map (fun r => r.currency))).flatMap (fun cur =>
        (triplesOf (sortByDate (df.filter (fun r => r.currency == cur)))).flatMap
          (fun t => satGapRows cur t.1.1 t.1.2 ++ sunGapRows cur t.1.1 t.1.2 t.2))) := rfl
  constructor
  · rw [hdef, hb, List.append_nil]
  · rw [hdef, hb, List.append_nil]
    exact List.perm_insertionSort _ _

/-- C10 witness: the no-op theorem applied to a concrete two-row table. -/
theorem backfill_short_input_noop_witness :
    backfillWeekendRates twoRowsDf = sortByCurrencyDate twoRowsDf
  ∧ (backfillWeekendRates twoRowsDf).Perm twoRowsDf :=
  backfill_short_input_noop twoRowsDf
    (fun c => lt_of_le_of_lt (List.length_filter_le _ _) (by decide))

/-- C4 counterexample: with a non-empty dataset, a 500 create response with
body "boom" and a 500 insert response, the bulk sync still runs the clear and
the insert and the process exits 0 — the failed create is not fatal and no
step yields a non-zero exit status. -/
theorem bulk_sync_create_failure_counterexample :
    runSync primNone fbTwoAED [20000] 500 "boom" 200 500
      = (0, [SEv.createFailed, SEv.cleared, SEv.uploadFailed]) := by
  decide

/-- C4 (amended): a 200 create response means created and a body containing
"already exists" is treated as success; any other create response is printed
as a failure but the run continues — the clear and the insert still execute —
and the bulk sync's process exit status is 0 regardless of the create, clear
and insert outcomes. -/
theorem bulk_sync_create_not_fatal (primary fallback : String → List (ℤ × ℚ))
    (dateRange : List ℤ) (cs : ℕ) (body : String) (cls us : ℕ)
    (h : syncRows primary fallback dateRange ≠ []) :
    (runSync primary fallback dateRange cs body cls us).1 = 0
  ∧ (cs = 200 →
      (runSync primary fallback dateRange cs body cls us).2.head? = some SEv.created)
  ∧ (cs ≠ 200 → strContainsSub body "already exists" = true →
      (runSync primary fallback dateRange cs body cls us).2.head? = some SEv.alreadyExists)
  ∧ (cs ≠ 200 → strContainsSub body "already exists" = false →
      (runSync primary fallback dateRange cs body cls us).2.head? = some SEv.createFailed)
  ∧ (us = 200 → SEv.uploaded ∈ (runSync primary fallback dateRange cs body cls us).2)
  ∧ (us ≠ 200 → SEv.uploadFailed ∈ (runSync primary fallback dateRange cs body cls us).2) := by
  have hne : (syncRows primary fallback dateRange).isEmpty = false := by
    simp [List.isEmpty_iff, h]
  refine ⟨?_, ?_, ?_, ?_, ?_, ?_⟩
  · simp only [runSync, hne]
    simp
  · intro h1
    simp only [runSync, hne]
    simp [h1]
  · intro h1 h2
    simp only [runSync, hne]
    simp [h1, h2]
  · intro h1 h2
    simp only [runSync, hne]
    simp [h1, h2]
  · intro h1
    simp only [runSync, hne]
    simp [h1]
  · intro h1
    simp only [runSync, hne]
    simp [h1]

/-- C4 witness: the not-fatal theorem applied to the counterexample inputs. -/
theorem bulk_sync_create_not_fatal_witness :
    (runSync primNone fbTwoAED [20000] 500 "boom" 200 500).1 = 0
  ∧ SEv.uploadFailed ∈ (runSync primNone fbTwoAED [20000] 500 "boom" 200 500).2 :=
  ⟨(bulk_sync_create_not_fatal primNone fbTwoAED [20000] 500 "boom" 200 500 (by decide)).1,
   (bulk_sync_create_not_fatal primNone fbTwoAED [20000] 500 "boom" 200 500 (by decide)).2.2.2.2.2
     (by decide)⟩

/-- C5 counterexample: with `DUNE_API_KEY` empty and one request inside the
target day, the relay loader still issues the relay listing GET (and writes
the CSV) before the missing-credential `SystemExit`: an HTTP request IS made
during a run with the credential missing. -/
theorem relay_missing_key_counterexample :
    runRelay "" [[reqInWindow]] 2025 6 15 200 200 = (1, [RAct.relayGet, RAct.csvWrite])
  ∧ RAct.relayGet ∈ (runRelay "" [[reqInWindow]] 2025 6 15 200 200).2 := by
  decide

/-- C5 (amended): with `DUNE_API_KEY` empty the relay loader never issues a
destination (Dune) create or insert call, and when the day's rows are
non-empty it aborts with exit status 1 — but only after the relay listing
requests, the flattening/filtering and the CSV write; when the day is empty it
exits 0 without ever checking the credential. -/
theorem relay_missing_key_no_dune_call (batches : List (List RelayReq)) (y m d : ℤ)
    (cs ins : ℕ) :
    RAct.duneCreate ∉ (runRelay "" batches y m d cs ins).2
  ∧ RAct.duneInsert ∉ (runRelay "" batches y m d cs ins).2
  ∧ (relayDayRows batches y m d ≠ [] → (runRelay "" batches y m d cs ins).1 = 1)
  ∧ (relayDayRows batches y m d = [] → (runRelay "" batches y m d cs ins).1 = 0) := by
  have hmap : ∀ x : RAct, x ∈ batches.map (fun _ => RAct.relayGet) → x = RAct.relayGet := by
    intro x hx
    obtain ⟨_, _, rfl⟩ := List.mem_map.mp hx
    rfl
  by_cases he : (relayDayRows batches y m d).isEmpty
  · have he' : relayDayRows batches y m d = [] := List.isEmpty_iff.mp he
    refine ⟨?_, ?_, ?_, ?_⟩
    · simp only [runRelay, he]
      simp only [if_true]
      intro hx
      cases hmap _ hx
    · simp only [runRelay, he]
      simp only [if_true]
      intro hx
      cases hmap _ hx
    · intro hne
      exact absurd he' hne
    · intro _
      simp only [runRelay, he]
      simp
  · have he' : (relayDayRows batches y m d).isEmpty = false := by
      simpa using he
    refine ⟨?_, ?_, ?_, ?_⟩
    · simp only [runRelay, he']
      simp only [Bool.false_eq_true, if_false, if_pos rfl]
      intro hx
      rcases List.mem_append.mp hx with hx1 | hx2
      · cases hmap _ hx1
      · simp at hx2
    · simp only [runRelay, he']
      simp only [Bool.false_eq_true, if_false, if_pos rfl]
      intro hx
      rcases List.mem_append.mp hx with hx1 | hx2
      · cases hmap _ hx1
      · simp at hx2
    · intro _
      simp only [runRelay, he']
      simp
    · intro hnil
      exact absurd (List.isEmpty_iff.mpr hnil) (by simp [he'])

/-- C5 witness: the amended theorem applied to the counterexample inputs. -/
theorem relay_missing_key_no_dune_call_witness :
    RAct.duneCreate ∉ (runRelay "" [[reqInWindow]] 2025 6 15 200 200).2
  ∧ (runRelay "" [[reqInWindow]] 2025 6 15 200 200).1 = 1 :=
  ⟨(relay_missing_key_no_dune_call [[reqInWindow]] 2025 6 15 200 200).1,
   (relay_missing_key_no_dune_call [[reqInWindow]] 2025 6 15 200 200).2.2.1 (by decide)⟩

/-- C8: when zero rows survive the day filter the relay loader exits 0 with no
CSV write, no table creation and no upload; the FX daily loader exits 1 when
its final table is empty; the daily update has the same empty-table exit-1
guard, but its synthetic USD base row makes the final table provably
non-empty, so the guard never fires. -/
theorem empty_result_exit_policy :
    (∀ (apiKey : String) (batches : List (List RelayReq)) (y m d : ℤ) (cs ins : ℕ),
      relayDayRows batches y m d = [] →
        (runRelay apiKey batches y m d cs ins).1 = 0
      ∧ RAct.csvWrite ∉ (runRelay apiKey batches y m d cs ins).2
      ∧ RAct.duneCreate ∉ (runRelay apiKey batches y m d cs ins).2
      ∧ RAct.duneInsert ∉ (runRelay apiKey batches y m d cs ins).2)
  ∧ (∀ (today : ℤ) (rates : String → Option ℚ) (us : ℕ),
      dailyFinalRows today rates = [] → dailyRun today rates us = 1)
  ∧ (∀ (today : ℤ) (provider : List (String × ℚ)) (us : ℕ),
      tmFinalRows today provider ≠ []
      ∧ (tmFinalRows today provider = [] → tmRun today provider us = 1)) := by
  refine ⟨?_, ?_, ?_⟩
  · intro apiKey batches y m d cs ins h
    have he : (relayDayRows batches y m d).isEmpty = true := List.isEmpty_iff.mpr h
    have hmap : ∀ x : RAct, x ∈ batches.map (fun _ => RAct.relayGet) → x = RAct.relayGet := by
      intro x hx
      obtain ⟨_, _, rfl⟩ := List.mem_map.mp hx
      rfl
    refine ⟨?_, ?_, ?_, ?_⟩
    · simp only [runRelay, he]
      simp
    · simp only [runRelay, he]
      simp only [if_true]
      intro hx
      cases hmap _ hx
    · simp only [runRelay, he]
      simp only [if_true]
      intro hx
      cases hmap _ hx
    · simp only [runRelay, he]
      simp only [if_true]
      intro hx
      cases hmap _ hx
  · intro today rates us h
    unfold dailyRun
    simp [h]
  · intro today provider us
    have husd : (⟨today, "USD", 1, 1⟩ : FxRow) ∈ tmFinalRows today provider := by
      unfold tmFinalRows tmRows
      apply List.mem_filter.mpr
      refine ⟨List.mem_append_right _ (List.mem_singleton_self _), ?_⟩
      show decide ((1:ℚ) ≠ 0 ∧ (1:ℚ) ≠ 0) = true
      decide
    have hne := List.ne_nil_of_mem husd
    exact ⟨hne, fun h' => absurd h' hne⟩

/-- C8 witness: a run whose only request falls outside the target day exits 0
with no write/create/insert, and a daily-loader run whose single huge rate
rounds to a zero `fx_rate` ends with an empty table and exit status 1. -/
theorem empty_result_exit_policy_witness :
    ((runRelay "k" [[reqOutWindow]] 2025 6 15 200 200).1 = 0
      ∧ RAct.csvWrite ∉ (runRelay "k" [[reqOutWindow]] 2025 6 15 200 200).2
      ∧ RAct.duneCreate ∉ (runRelay "k" [[reqOutWindow]] 2025 6 15 200 200).2
      ∧ RAct.duneInsert ∉ (runRelay "k" [[reqOutWindow]] 2025 6 15 200 200).2)
  ∧ dailyRun 20000 ratesBig 200 = 1 :=
  ⟨empty_result_exit_policy.1 "k" [[reqOutWindow]] 2025 6 15 200 200 (by decide),
   empty_result_exit_policy.2.1 20000 ratesBig 200 (by decide)⟩

/-- C2 counterexample: the historical bulk sync performs no zero/absent-rate
filter — a zero close value from the fallback ticker produces a row with
`fx_rate = 0` in its dataset, and the upload step posts that dataset (the run
reaching the `uploaded` event with exit 0). -/
theorem bulk_sync_zero_rate_uploaded_counterexample :
    (⟨20000, "AED", 0, 0⟩ : FxRow) ∈ syncRows primNone fbZeroAED [20000]
  ∧ runSync primNone fbZeroAED [20000] 200 "" 200 200
      = (0, [SEv.created, SEv.cleared, SEv.uploaded]) := by
  decide

/-- C2 (amended): the daily loader, the weekend backfill in `src/`, the
robust daily update, and the two spec-modelled variants (currency-history
weekend backfill and the first daily-update variant) never let a row with a
zero `fx_rate` or `inverse_fx_rate` into the uploaded dataset; the historical
bulk sync performs no such filter (see the counterexample). -/
theorem zero_rate_filter_components :
    (∀ (today : ℤ) (rates : String → Option ℚ) (r : FxRow),
       r ∈ dailyFinalRows today rates → r.fx_rate ≠ 0 ∧ r.inverse_fx_rate ≠ 0)
  ∧ (∀ (today : ℤ) (f m : String → Option ℚ) (r : FxRow),
       r ∈ wkndFinalRows today f m → r.fx_rate ≠ 0 ∧ r.inverse_fx_rate ≠ 0)
  ∧ (∀ (today : ℤ) (provider : List (String × ℚ)) (r : FxRow),
       r ∈ tmFinalRows today provider → r.fx_rate ≠ 0 ∧ r.inverse_fx_rate ≠ 0)
  ∧ (∀ (today : ℤ) (f m : String → Option ℚ) (r : FxRow),
       r ∈ specWkndVariantRows today f m → r.fx_rate ≠ 0 ∧ r.inverse_fx_rate ≠ 0)
  ∧ (∀ (today : ℤ) (provider : List (String × ℚ)) (r : FxRow),
       r ∈ specDailyV1Rows today provider → r.fx_rate ≠ 0 ∧ r.inverse_fx_rate ≠ 0) := by
  refine ⟨?_, ?_, ?_, ?_, ?_⟩
  · intro today rates r h
    exact of_decide_eq_true (List.mem_filter.mp h).2
  · intro today f m r h
    exact of_decide_eq_true (List.mem_filter.mp h).2
  · intro today provider r h
    exact of_decide_eq_true (List.mem_filter.mp h).2
  · intro today f m r h
    exact of_decide_eq_true (List.mem_filter.mp h).2
  · intro today provider r h
    exact of_decide_eq_true (List.mem_filter.mp h).2

/-- C2 witness: the filter property applied to one concrete member of each of
the five filtering components' outputs. -/
theorem zero_rate_filter_components_witness :
    ((dailyFxRow 20000 "VND" 26000).fx_rate ≠ 0
      ∧ (dailyFxRow 20000 "VND" 26000).inverse_fx_rate ≠ 0)
  ∧ ((⟨20001, "USD", 1, 1⟩ : FxRow).fx_rate ≠ 0
      ∧ (⟨20001, "USD", 1, 1⟩ : FxRow).inverse_fx_rate ≠ 0)
  ∧ ((⟨20000, "USD", 1, 1⟩ : FxRow).fx_rate ≠ 0
      ∧ (⟨20000, "USD", 1, 1⟩ : FxRow).inverse_fx_rate ≠ 0) :=
  ⟨zero_rate_filter_components.1 20000 ratesVND (dailyFxRow 20000 "VND" 26000) (by decide),
   zero_rate_filter_components.2.1 20003 friEx monEx ⟨20001, "USD", 1, 1⟩ (by decide),
   zero_rate_filter_components.2.2.1 20000 [] ⟨20000, "USD", 1, 1⟩ (by decide)⟩

/-- C1 counterexample: a VND-scale provider rate of 26000 yields a daily
loader row (uploaded: it survives the final filter) whose
`fx_rate × inverse_fx_rate` is exactly `1 - 1/25000 = 0.99996`, which misses
1 by `4·10⁻⁵`, far beyond the claimed `1e-6` tolerance. -/
theorem fx_reciprocal_tolerance_counterexample :
    dailyFxRow 20000 "VND" 26000 ∈ dailyFinalRows 20000 ratesVND
  ∧ (dailyFxRow 20000 "VND" 26000).fx_rate * (dailyFxRow 20000 "VND" 26000).inverse_fx_rate
      = 1 - 1/25000
  ∧ ¬ |(dailyFxRow 20000 "VND" 26000).fx_rate * (dailyFxRow 20000 "VND" 26000).inverse_fx_rate
        - 1| ≤ 1/10^6 := by
  refine ⟨by decide, by decide, ?_⟩
  intro h
  have h2 : ¬ |(dailyFxRow 20000 "VND" 26000).fx_rate
      * (dailyFxRow 20000 "VND" 26000).inverse_fx_rate - 1| ≤ 1/10^6 := by decide
  exact h2 h

/-- The reciprocal-invariant bound of the amended claim, stated on a row's own
fields: the product of `fx_rate` and `inverse_fx_rate` deviates from 1 by at
most `(fx_rate + inverse_fx_rate)·5·10⁻⁹ + 7.5·10⁻¹⁷`. -/
def recipBound (row : FxRow) : Prop :=
  |row.fx_rate * row.inverse_fx_rate - 1| ≤
    (row.fx_rate + row.inverse_fx_rate) * (1 / (2 * 10^8)) + 3 / (4 * 10^16)

theorem round8_nonneg (x : ℚ) (hx : 0 ≤ x) : 0 ≤ round8 x := by
  have h0 : (0:ℤ) ≤ ⌊x * 10^8⌋ := Int.floor_nonneg.mpr (by positivity)
  have h : (0:ℤ) ≤ rnd (x * 10^8) := by
    unfold rnd
    split_ifs <;> omega
  have h' : (0:ℚ) ≤ (rnd (x * 10^8) : ℚ) := by exact_mod_cast h
  unfold round8
  exact div_nonneg h' (by norm_num)

/-- The pair shape `round8 r` / `round8 (1/r)` — the daily loader's base rows
and the daily-update rows — satisfies the field-level bound. -/
theorem round8_pair_bound (r : ℚ) (hr : 0 < r) :
    |round8 r * round8 (1/r) - 1| ≤
      (round8 r + round8 (1/r)) * (1 / (2 * 10^8)) + 3 / (4 * 10^16) := by
  have h1 := round8_mul_round8_inv r hr
  have h2 := abs_sub_round8 r
  have h3 := abs_sub_round8 (1/r)
  rw [abs_le] at h2 h3
  linarith [h1, h2.1, h2.2, h3.1, h3.2]

/-- The chained shape `v` / `round8 (1/v)` with `v` already rounded — the
weekend-backfilled rows and the spec-4.5 variant's rows — satisfies the
field-level bound. -/
theorem round8_chain_bound (v : ℚ) (hv : 0 < v) :
    |v * round8 (1/v) - 1| ≤ (v + round8 (1/v)) * (1 / (2 * 10^8)) + 3 / (4 * 10^16) := by
  have h1 := mul_round8_inv v hv
  have h3 := abs_sub_round8 (1/v)
  rw [abs_le] at h3
  have hvinv : 0 < 1/v := by positivity
  linarith [h1, h3.1, h3.2]

/-- The chained shape with the rounded value stored in `inverse_fx_rate` —
the spec-4.2 variant's rows. -/
theorem round8_chain_bound_comm (v : ℚ) (hv : 0 < v) :
    |round8 (1/v) * v - 1| ≤ (round8 (1/v) + v) * (1 / (2 * 10^8)) + 3 / (4 * 10^16) := by
  rw [mul_comm (round8 (1/v)) v, add_comm (round8 (1/v)) v]
  exact round8_chain_bound v hv

/-- The synthetic USD base rows `(1.0, 1.0)` satisfy the field-level bound. -/
theorem usd_row_bound :
    |(1:ℚ) * 1 - 1| ≤ ((1:ℚ) + 1) * (1 / (2 * 10^8)) + 3 / (4 * 10^16) := by
  norm_num

/-- A member of the daily loader's initial rows is `dailyFxRow` at a present,
non-zero provider rate. -/
theorem mem_dailyRows_shape (today : ℤ) (rates : String → Option ℚ) (row : FxRow)
    (h : row ∈ dailyRows today rates) :
    ∃ c fx, rates c = some fx ∧ fx ≠ 0 ∧ row = dailyFxRow today c fx := by
  unfold dailyRows at h
  obtain ⟨c, _, hc⟩ := List.mem_filterMap.mp h
  cases hr : rates c with
  | none => simp [hr] at hc
  | some fx =>
    simp only [hr] at hc
    by_cases hz : fx = 0
    · rw [if_pos hz] at hc
      cases hc
    · rw [if_neg hz] at hc
      injection hc with hc
      exact ⟨c, fx, hr, hz, hc.symm⟩

/-- Initial daily-loader rows have a nonnegative `fx_rate` when every
provider rate is positive. -/
theorem dailyRows_fx_nonneg (today : ℤ) (rates : String → Option ℚ)
    (hpos : ∀ c r, rates c = some r → 0 < r) (row : FxRow)
    (h : row ∈ dailyRows today rates) : 0 ≤ row.fx_rate := by
  obtain ⟨c, fx, hc, _, hshape⟩ := mem_dailyRows_shape today rates row h
  have hfx := hpos c fx hc
  subst hshape
  show 0 ≤ round8 (1 / fx)
  exact round8_nonneg _ (le_of_lt (one_div_pos.mpr hfx))

/-- Membership in the weekend-backfilled table decomposes: a row is an input
row or comes from one gap rule applied to a scanned triple of a per-currency
date-sorted group. -/
theorem mem_backfillWeekendRates (df : List FxRow) (row : FxRow)
    (h : row ∈ backfillWeekendRates df) :
    row ∈ df ∨ ∃ cur t, t ∈ triplesOf (sortByDate (df.filter (fun r => r.currency == cur)))
      ∧ (row ∈ satGapRows cur t.1.1 t.1.2 ∨ row ∈ sunGapRows cur t.1.1 t.1.2 t.2) := by
  have hdef : backfillWeekendRates df =
      sortByCurrencyDate (df ++ (uniqueFirst (df.map (fun r => r.currency))).flatMap
        (fun cur => (triplesOf (sortByDate (df.filter (fun r => r.currency == cur)))).flatMap
          (fun t => satGapRows cur t.1.1 t.1.2 ++ sunGapRows cur t.1.1 t.1.2 t.2))) := rfl
  rw [hdef] at h
  unfold sortByCurrencyDate at h
  rw [(List.perm_insertionSort rowLECurrencyDate _).mem_iff] at h
  rcases List.mem_append.mp h with h1 | h2
  · exact Or.inl h1
  · obtain ⟨cur, _, hm⟩ := List.mem_flatMap.mp h2
    obtain ⟨t, ht, hrow⟩ := List.mem_flatMap.mp hm
    rcases List.mem_append.mp hrow with hs | hs
    · exact Or.inr ⟨cur, t, ht, Or.inl hs⟩
    · exact Or.inr ⟨cur, t, ht, Or.inr hs⟩

/-- The two rows a gap rule reads from a scanned triple belong to the
underlying table. -/
theorem triple_mem_df (df : List FxRow) (cur : String) (t : (FxRow × FxRow) × FxRow)
    (ht : t ∈ triplesOf (sortByDate (df.filter (fun r => r.currency == cur)))) :
    t.1.1 ∈ df ∧ t.1.2 ∈ df := by
  obtain ⟨⟨p, c⟩, n⟩ := t
  unfold triplesOf at ht
  have h1 := List.of_mem_zip ht
  have h2 := List.of_mem_zip h1.1
  have hp : p ∈ sortByDate (df.filter (fun r => r.currency == cur)) := h2.1
  have hcm : c ∈ sortByDate (df.filter (fun r => r.currency == cur)) :=
    List.mem_of_mem_drop h2.2
  unfold sortByDate at hp hcm
  rw [(List.perm_insertionSort rowLEDate _).mem_iff] at hp hcm
  exact ⟨List.mem_of_mem_filter hp, List.mem_of_mem_filter hcm⟩

/-- A Saturday-rule row stores the rounded `(2/3, 1/3)` blend in `fx_rate`
and the rounded reciprocal of that blend in `inverse_fx_rate`. -/
theorem mem_satGapRows_shape (cur : String) (p c row : FxRow)
    (h : row ∈ satGapRows cur p c) :
    row.fx_rate = round8 ((2/3) * p.fx_rate + (1/3) * c.fx_rate)
    ∧ row.inverse_fx_rate = round8 (1 / row.fx_rate) := by
  unfold satGapRows at h
  by_cases hcond : c.date - p.date = 2 ∧ pyWeekday p.date = 4 ∧ pyWeekday c.date = 6
  · rw [if_pos hcond, List.mem_singleton] at h
    subst h
    exact ⟨rfl, rfl⟩
  · rw [if_neg hcond] at h
    cases h

/-- A Sunday-rule row stores the rounded `(1/3, 2/3)` blend in `fx_rate` and
the rounded reciprocal of that blend in `inverse_fx_rate`. -/
theorem mem_sunGapRows_shape (cur : String) (p c n row : FxRow)
    (h : row ∈ sunGapRows cur p c n) :
    row.fx_rate = round8 ((1/3) * p.fx_rate + (2/3) * c.fx_rate)
    ∧ row.inverse_fx_rate = round8 (1 / row.fx_rate) := by
  unfold sunGapRows at h
  by_cases hcond : n.date - c.date = 2 ∧ pyWeekday c.date = 0 ∧ pyWeekday p.date = 4
  · rw [if_pos hcond, List.mem_singleton] at h
    subst h
    exact ⟨rfl, rfl⟩
  · rw [if_neg hcond] at h
    cases h

/-- A row of the weekend backfill script's Saturday list is either a blended
row for a currency present in both snapshots or the synthetic USD row. -/
theorem mem_wkndSaturdayRows_shape (today : ℤ) (f m : String → Option ℚ) (row : FxRow)
    (h : row ∈ wkndSaturdayRows today f m) :
    (∃ cur F M, f cur = some F ∧ m cur = some M ∧
      row.fx_rate = round8 ((2/3) * F + (1/3) * M)
      ∧ row.inverse_fx_rate = round8 (1 / row.fx_rate))
    ∨ row = ⟨today - 2, "USD", 1, 1⟩ := by
  unfold wkndSaturdayRows at h
  rcases List.mem_append.mp h with h1 | h1
  · obtain ⟨cur, _, hc⟩ := List.mem_filterMap.mp h1
    cases hf : f cur with
    | none => simp [hf] at hc
    | some F =>
      cases hm : m cur with
      | none => simp [hf, hm] at hc
      | some M =>
        simp only [hf, hm] at hc
        injection hc with hc
        subst hc
        exact Or.inl ⟨cur, F, M, hf, hm, rfl, rfl⟩
  · rw [List.mem_singleton] at h1
    exact Or.inr h1

/-- A row of the weekend backfill script's Sunday list is either a blended
row for a currency present in both snapshots or the synthetic USD row. -/
theorem mem_wkndSundayRows_shape (today : ℤ) (f m : String → Option ℚ) (row : FxRow)
    (h : row ∈ wkndSundayRows today f m) :
    (∃ cur F M, f cur = some F ∧ m cur = some M ∧
      row.fx_rate = round8 ((1/3) * F + (2/3) * M)
      ∧ row.inverse_fx_rate = round8 (1 / row.fx_rate))
    ∨ row = ⟨today - 1, "USD", 1, 1⟩ := by
  unfold wkndSundayRows at h
  rcases List.mem_append.mp h with h1 | h1
  · obtain ⟨cur, _, hc⟩ := List.mem_filterMap.mp h1
    cases hf : f cur with
    | none => simp [hf] at hc
    | some F =>
      cases hm : m cur with
      | none => simp [hf, hm] at hc
      | some M =>
        simp only [hf, hm] at hc
        injection hc with hc
        subst hc
        exact Or.inl ⟨cur, F, M, hf, hm, rfl, rfl⟩
  · rw [List.mem_singleton] at h1
    exact Or.inr h1

/-- A row produced by `tmRow` stores the rounded oriented rate and the
rounded reciprocal of the raw oriented rate. -/
theorem tmRow_shape (today : ℤ) (p : String × ℚ) (row : FxRow)
    (h : tmRow today p = some row) :
    ∃ fx : ℚ, fx = (if (p.1.toList.drop 3).asString = "USD" then p.2 else 1 / p.2)
      ∧ fx ≠ 0 ∧ row.fx_rate = round8 fx ∧ row.inverse_fx_rate = round8 (1 / fx) := by
  simp only [tmRow] at h
  by_cases hz : (if (p.1.toList.drop 3).asString = "USD" then p.2 else 1 / p.2) = 0
  · rw [if_pos hz] at h
    cases h
  · rw [if_neg hz] at h
    injection h with h
    subst h
    exact ⟨_, rfl, hz, rfl, rfl⟩

/-- A row of the spec-4.2 weekend variant stores the rounded blend in
`inverse_fx_rate` and the guarded rounded reciprocal in `fx_rate`. -/
theorem mem_specWkndVariantRows_shape (today : ℤ) (f m : String → Option ℚ) (row : FxRow)
    (h : row ∈ specWkndVariantRows today f m) :
    ∃ cur F M, f cur = some F ∧ m cur = some M ∧
      (row.inverse_fx_rate = round8 ((2/3) * F + (1/3) * M)
       ∨ row.inverse_fx_rate = round8 ((1/3) * F + (2/3) * M))
      ∧ row.fx_rate =
          (if row.inverse_fx_rate = 0 then 0 else round8 (1 / row.inverse_fx_rate)) := by
  unfold specWkndVariantRows at h
  have h1 := List.mem_of_mem_filter h
  obtain ⟨cur, _, hm2⟩ := List.mem_flatMap.mp h1
  cases hf : f cur with
  | none => simp [hf] at hm2
  | some F =>
    cases hmc : m cur with
    | none => simp [hf, hmc] at hm2
    | some M =>
      simp only [hf, hmc] at hm2
      rcases List.mem_pair.mp hm2 with hrow | hrow
      · subst hrow
        exact ⟨cur, F, M, hf, hmc, Or.inl rfl, rfl⟩
      · subst hrow
        exact ⟨cur, F, M, hf, hmc, Or.inr rfl, rfl⟩

/-- A row of the spec-4.5 daily-update variant is either a rounded oriented
rate with its inverse rounded from the rounded rate, or the USD row. -/
theorem mem_specDailyV1Rows_shape (today : ℤ) (provider : List (String × ℚ)) (row : FxRow)
    (h : row ∈ specDailyV1Rows today provider) :
    (∃ p, p ∈ provider ∧
      row.fx_rate = round8 (if (p.1.toList.drop 3).asString = "USD" then p.2 else 1 / p.2)
      ∧ row.inverse_fx_rate = round8 (1 / row.fx_rate))
    ∨ row = ⟨today, "USD", 1, 1⟩ := by
  unfold specDailyV1Rows at h
  have h1 := List.mem_of_mem_filter h
  rcases List.mem_append.mp h1 with hb | hu
  · obtain ⟨p, hp, heq⟩ := List.mem_map.mp hb
    subst heq
    exact Or.inl ⟨p, hp, rfl, rfl⟩
  · rw [List.mem_singleton] at hu
    exact Or.inr hu

/-- C1 (amended): every uploaded FX row of every component, built from
positive provider rates, satisfies `recipBound`:
`|fx_rate × inverse_fx_rate − 1| ≤ (fx_rate + inverse_fx_rate)·5·10⁻⁹ + 7.5·10⁻¹⁷`
— the daily loader's full final table (base rows plus both weekend gap
rules), the weekend backfill script's final table, the daily update's final
table (either quote-leg orientation), the spec-modelled 4.2 weekend variant
(whose blend is stored in `inverse_fx_rate`) and 4.5 daily-update variant,
and the synthetic USD rows; bulk-sync rows, whose inverse is unrounded, have
product exactly 1.  The claimed `1e-6` tolerance thus holds only when
`fx_rate + inverse_fx_rate` is at most about 200 and fails for
VND/IDR-scale rates (see the counterexample). -/
theorem fx_reciprocal_rounding_bound :
    (∀ (today : ℤ) (rates : String → Option ℚ),
      (∀ c r, rates c = some r → 0 < r) →
      ∀ row ∈ dailyFinalRows today rates, recipBound row)
  ∧ (∀ (today : ℤ) (f m : String → Option ℚ),
      (∀ c v, f c = some v → 0 < v) → (∀ c v, m c = some v → 0 < v) →
      ∀ row ∈ wkndFinalRows today f m, recipBound row)
  ∧ (∀ (today : ℤ) (provider : List (String × ℚ)),
      (∀ p ∈ provider, 0 < p.2) →
      ∀ row ∈ tmFinalRows today provider, recipBound row)
  ∧ (∀ (today : ℤ) (f m : String → Option ℚ),
      (∀ c v, f c = some v → 0 < v) → (∀ c v, m c = some v → 0 < v) →
      ∀ row ∈ specWkndVariantRows today f m, recipBound row)
  ∧ (∀ (today : ℤ) (provider : List (String × ℚ)),
      (∀ p ∈ provider, 0 < p.2) →
      ∀ row ∈ specDailyV1Rows today provider, recipBound row)
  ∧ (∀ (primary fallback : String → List (ℤ × ℚ)) (dateRange : List ℤ) (row : FxRow),
      row ∈ syncRows primary fallback dateRange → row.fx_rate ≠ 0 →
      row.fx_rate * row.inverse_fx_rate = 1) := by
  refine ⟨?_, ?_, ?_, ?_, ?_, ?_⟩
  · -- daily loader
    intro today rates hpos row hrow
    have hfilter := List.mem_filter.mp hrow
    have hne : row.fx_rate ≠ 0 ∧ row.inverse_fx_rate ≠ 0 := of_decide_eq_true hfilter.2
    rcases mem_backfillWeekendRates _ _ hfilter.1 with hbase | ⟨cur, t, ht, hgap⟩
    · obtain ⟨c, fx, hc, _, hshape⟩ := mem_dailyRows_shape today rates row hbase
      have hfx := hpos c fx hc
      subst hshape
      unfold recipBound
      show |round8 (1/fx) * round8 fx - 1| ≤
        (round8 (1/fx) + round8 fx) * (1 / (2 * 10^8)) + 3 / (4 * 10^16)
      rw [mul_comm (round8 (1/fx)) (round8 fx), add_comm (round8 (1/fx)) (round8 fx)]
      exact round8_pair_bound fx hfx
    · have hmem := triple_mem_df (dailyRows today rates) cur t ht
      have h1 : 0 ≤ t.1.1.fx_rate := dailyRows_fx_nonneg today rates hpos _ hmem.1
      have h2 : 0 ≤ t.1.2.fx_rate := dailyRows_fx_nonneg today rates hpos _ hmem.2
      rcases hgap with hs | hs
      · obtain ⟨hfx, hinv⟩ := mem_satGapRows_shape cur t.1.1 t.1.2 row hs
        have hnn : 0 ≤ row.fx_rate := by
          rw [hfx]
          apply round8_nonneg
          linarith
        have hp : 0 < row.fx_rate := lt_of_le_of_ne hnn (Ne.symm hne.1)
        unfold recipBound
        rw [hinv]
        exact round8_chain_bound row.fx_rate hp
      · obtain ⟨hfx, hinv⟩ := mem_sunGapRows_shape cur t.1.1 t.1.2 t.2 row hs
        have hnn : 0 ≤ row.fx_rate := by
          rw [hfx]
          apply round8_nonneg
          linarith
        have hp : 0 < row.fx_rate := lt_of_le_of_ne hnn (Ne.symm hne.1)
        unfold recipBound
        rw [hinv]
        exact round8_chain_bound row.fx_rate hp
  · -- weekend backfill script in src/
    intro today f m hf hm row hrow
    have hfilter := List.mem_filter.mp hrow
    have hne : row.fx_rate ≠ 0 ∧ row.inverse_fx_rate ≠ 0 := of_decide_eq_true hfilter.2
    have husd : recipBound (⟨today - 2, "USD", 1, 1⟩ : FxRow) ∧
        recipBound (⟨today - 1, "USD", 1, 1⟩ : FxRow) := by
      constructor <;>
        · unfold recipBound
          show |(1:ℚ) * 1 - 1| ≤ ((1:ℚ) + 1) * (1 / (2 * 10^8)) + 3 / (4 * 10^16)
          exact usd_row_bound
    rcases List.mem_append.mp hfilter.1 with hside | hside
    · rcases mem_wkndSaturdayRows_shape today f m row hside with
        ⟨cur, F, M, hF, hM, hfx, hinv⟩ | heq
      · have hFp := hf cur F hF
        have hMp := hm cur M hM
        have hnn : 0 ≤ row.fx_rate := by
          rw [hfx]
          apply round8_nonneg
          linarith
        have hp : 0 < row.fx_rate := lt_of_le_of_ne hnn (Ne.symm hne.1)
        unfold recipBound
        rw [hinv]
        exact round8_chain_bound row.fx_rate hp
      · rw [heq]
        exact husd.1
    · rcases mem_wkndSundayRows_shape today f m row hside with
        ⟨cur, F, M, hF, hM, hfx, hinv⟩ | heq
      · have hFp := hf cur F hF
        have hMp := hm cur M hM
        have hnn : 0 ≤ row.fx_rate := by
          rw [hfx]
          apply round8_nonneg
          linarith
        have hp : 0 < row.fx_rate := lt_of_le_of_ne hnn (Ne.symm hne.1)
        unfold recipBound
        rw [hinv]
        exact round8_chain_bound row.fx_rate hp
      · rw [heq]
        exact husd.2
  · -- daily update (robust variant in src/)
    intro today provider hpos row hrow
    have hfilter := List.mem_filter.mp hrow
    rcases List.mem_append.mp hfilter.1 with hbase | husd
    · obtain ⟨p, hp, hrp⟩ := List.mem_filterMap.mp hbase
      obtain ⟨fx, hfxdef, hfz, hfx, hinv⟩ := tmRow_shape today p row hrp
      have hp2 := hpos p hp
      have hfxpos : 0 < fx := by
        rw [hfxdef]
        split_ifs
        · exact hp2
        · exact one_div_pos.mpr hp2
      unfold recipBound
      rw [hfx, hinv]
      exact round8_pair_bound fx hfxpos
    · rw [List.mem_singleton] at husd
      rw [husd]
      unfold recipBound
      show |(1:ℚ) * 1 - 1| ≤ ((1:ℚ) + 1) * (1 / (2 * 10^8)) + 3 / (4 * 10^16)
      exact usd_row_bound
  · -- spec-modelled weekend variant (spec 4.2)
    intro today f m hf hm row hrow
    have hfilter := List.mem_filter.mp hrow
    have hne : row.fx_rate ≠ 0 ∧ row.inverse_fx_rate ≠ 0 := of_decide_eq_true hfilter.2
    obtain ⟨cur, F, M, hF, hM, hinvEq, hfxEq⟩ := mem_specWkndVariantRows_shape today f m row hrow
    have hFp := hf cur F hF
    have hMp := hm cur M hM
    have hinvnn : 0 ≤ row.inverse_fx_rate := by
      rcases hinvEq with h | h <;>
        · rw [h]
          apply round8_nonneg
          linarith
    have hinvpos : 0 < row.inverse_fx_rate := lt_of_le_of_ne hinvnn (Ne.symm hne.2)
    have hfx : row.fx_rate = round8 (1 / row.inverse_fx_rate) := by
      rw [hfxEq, if_neg hne.2]
    unfold recipBound
    rw [hfx]
    exact round8_chain_bound_comm row.inverse_fx_rate hinvpos
  · -- spec-modelled first daily-update variant (spec 4.5)
    intro today provider hpos row hrow
    have hfilter := List.mem_filter.mp hrow
    have hne : row.fx_rate ≠ 0 ∧ row.inverse_fx_rate ≠ 0 := of_decide_eq_true hfilter.2
    rcases mem_specDailyV1Rows_shape today provider row hrow with ⟨p, hp, hfx, hinv⟩ | husd
    · have hp2 := hpos p hp
      have hfxraw : 0 < (if (p.1.toList.drop 3).asString = "USD" then p.2 else 1 / p.2) := by
        split_ifs
        · exact hp2
        · exact one_div_pos.mpr hp2
      have hnn : 0 ≤ row.fx_rate := by
        rw [hfx]
        exact round8_nonneg _ (le_of_lt hfxraw)
      have hpfx : 0 < row.fx_rate := lt_of_le_of_ne hnn (Ne.symm hne.1)
      unfold recipBound
      rw [hinv]
      exact round8_chain_bound row.fx_rate hpfx
    · rw [husd]
      unfold recipBound
      show |(1:ℚ) * 1 - 1| ≤ ((1:ℚ) + 1) * (1 / (2 * 10^8)) + 3 / (4 * 10^16)
      exact usd_row_bound
  · -- historical bulk sync: unrounded inverse, exact product
    intro primary fallback dateRange row hrow hz
    unfold syncRows sortByDateCurrency at hrow
    rw [(List.perm_insertionSort rowLEDateCurrency _).mem_iff] at hrow
    obtain ⟨cur, _, hmem⟩ := List.mem_flatMap.mp hrow
    obtain ⟨p, _, hp⟩ := List.mem_map.mp hmem
    subst hp
    exact mul_one_div_cancel hz

/-- C1 witness: the daily-loader conjunct applied to the concrete VND run —
the uploaded VND row satisfies the amended field-level bound. -/
theorem fx_reciprocal_rounding_bound_witness :
    recipBound (dailyFxRow 20000 "VND" 26000) :=
  fx_reciprocal_rounding_bound.1 20000 ratesVND
    (by
      intro c r h
      by_cases hc : c = "VND"
      · rw [hc] at h
        simp only [ratesVND, if_pos rfl] at h
        injection h with h
        rw [← h]
        norm_num
      · simp only [ratesVND, if_neg hc] at h
        cases h)
    (dailyFxRow 20000 "VND" 26000) (by decide)


/-- C3: for a currency with Friday rate `F` and Monday rate `M` present in
both snapshots, the weekend backfill synthesizes Saturday as
`round(2/3·F + 1/3·M, 8)` and Sunday as `round(1/3·F + 2/3·M, 8)` (with the
reciprocal rounded from the blend); the daily loader's Saturday rule applies
the same `(2/3, 1/3)` weights to the earlier/later rows bounding its detected
Friday→Sunday two-day gap, its Sunday rule applies `(1/3, 2/3)` to the
Friday/Monday rows, and rows produced by either rule from a scanned triple
land in the backfilled output. -/
theorem weekend_interpolation_weights (today : ℤ) (f m : String → Option ℚ)
    (cur : String) (F M : ℚ) (hcur : cur ∈ CURRENCIES_NO_ARS)
    (hf : f cur = some F) (hm : m cur = some M) (hF : F ≠ 0) (hM : M ≠ 0) :
    (⟨today - 2, cur, round8 ((2/3) * F + (1/3) * M),
       round8 (1 / round8 ((2/3) * F + (1/3) * M))⟩ : FxRow) ∈ wkndSaturdayRows today f m
  ∧ (⟨today - 1, cur, round8 ((1/3) * F + (2/3) * M),
       round8 (1 / round8 ((1/3) * F + (2/3) * M))⟩ : FxRow) ∈ wkndSundayRows today f m
  ∧ (∀ (p c' : FxRow), c'.date - p.date = 2 → pyWeekday p.date = 4 → pyWeekday c'.date = 6 →
       satGapRows cur p c' = [⟨p.date + 1, cur,
         round8 ((2/3) * p.fx_rate + (1/3) * c'.fx_rate),
         round8 (1 / round8 ((2/3) * p.fx_rate + (1/3) * c'.fx_rate))⟩])
  ∧ (∀ (p c' n : FxRow), n.date - c'.date = 2 → pyWeekday c'.date = 0 → pyWeekday p.date = 4 →
       sunGapRows cur p c' n = [⟨c'.date - 1, cur,
         round8 ((1/3) * p.fx_rate + (2/3) * c'.fx_rate),
         round8 (1 / round8 ((1/3) * p.fx_rate + (2/3) * c'.fx_rate))⟩])
  ∧ (∀ (df : List FxRow) (cur2 : String) (t : (FxRow × FxRow) × FxRow) (row : FxRow),
       cur2 ∈ uniqueFirst (df.map (fun r => r.currency)) →
       t ∈ triplesOf (sortByDate (df.filter (fun r => r.currency == cur2))) →
       row ∈ satGapRows cur2 t.1.1 t.1.2 ++ sunGapRows cur2 t.1.1 t.1.2 t.2 →
       row ∈ backfillWeekendRates df) := by
  refine ⟨?_, ?_, ?_, ?_, ?_⟩
  · unfold wkndSaturdayRows
    apply List.mem_append_left
    apply List.mem_filterMap.mpr
    exact ⟨cur, hcur, by rw [hf, hm]⟩
  · unfold wkndSundayRows
    apply List.mem_append_left
    apply List.mem_filterMap.mpr
    exact ⟨cur, hcur, by rw [hf, hm]⟩
  · intro p c' h1 h2 h3
    unfold satGapRows
    rw [if_pos ⟨h1, h2, h3⟩]
  · intro p c' n h1 h2 h3
    unfold sunGapRows
    rw [if_pos ⟨h1, h2, h3⟩]
  · intro df cur2 t row h1 h2 h3
    have hdef : backfillWeekendRates df =
        sortByCurrencyDate (df ++ (uniqueFirst (df.map (fun r => r.currency))).flatMap
          (fun cur3 => (triplesOf (sortByDate (df.filter (fun r => r.currency == cur3)))).flatMap
            (fun tt => satGapRows cur3 tt.1.1 tt.1.2 ++ sunGapRows cur3 tt.1.1 tt.1.2 tt.2))) :=
      rfl
    rw [hdef]
    unfold sortByCurrencyDate
    rw [(List.perm_insertionSort rowLECurrencyDate _).mem_iff]
    apply List.mem_append_right
    exact List.mem_flatMap.mpr ⟨cur2, h1, List.mem_flatMap.mpr ⟨t, h2, h3⟩⟩

/-- C3 witness: with `F = 1.10`, `M = 1.20` the synthesized Saturday blend is
`1.13333333` and the Sunday blend `1.16666667`, matching the spec's worked
example, and the Saturday row is in the backfill script's output. -/
theorem weekend_interpolation_weights_witness :
    (⟨20003 - 2, "EUR", round8 ((2/3) * (11/10) + (1/3) * (6/5)),
       round8 (1 / round8 ((2/3) * (11/10) + (1/3) * (6/5)))⟩ : FxRow)
        ∈ wkndSaturdayRows 20003 friEx monEx
  ∧ round8 ((2/3) * (11/10 : ℚ) + (1/3) * (6/5)) = 113333333 / 10^8
  ∧ round8 ((1/3) * (11/10 : ℚ) + (2/3) * (6/5)) = 116666667 / 10^8 :=
  ⟨(weekend_interpolation_weights 20003 friEx monEx "EUR" (11/10) (6/5)
      (by decide) (by decide) (by decide) (by decide) (by decide)).1,
   by decide, by decide⟩
